import Mathlib

/-!
# Redis-Clone: the Store task and the connection handler of `main.go`

A shallow embedding of `KeyValueStore.Start` and `HandleConnection`.

* A Go `string` is embedded as the list of its runes (`List Char`); `len` is the
  length of its UTF-8 encoding in bytes.
* The Go map `map[string]string` is embedded as a function from keys to optional
  values.
* A reply conduit (`Result chan<- string`, unbuffered) is embedded by the list of
  strings the Store sends on it, in order. The handler receives from a conduit
  exactly once, so a send after the first can never complete.
-/

namespace RedisClone

/-! ## Library functions used by the source -/

/-- Go `len(s)` of a string: the number of bytes of its UTF-8 encoding. -/
def len (s : List Char) : Nat :=
  (s.map Char.utf8Size).sum

/-- Go `unicode.IsSpace`: the Latin-1 white space is listed in the library
function itself, the rest is the Unicode property White_Space. -/
def IsSpace (r : Char) : Bool :=
  if r.toNat ≤ 0xFF then
    r = '\t' || r = '\n' || r.toNat = 0x0B || r.toNat = 0x0C || r = '\r' || r = ' '
      || r.toNat = 0x85 || r.toNat = 0xA0
  else
    r.toNat = 0x1680 || (0x2000 ≤ r.toNat && r.toNat ≤ 0x200A) || r.toNat = 0x2028
      || r.toNat = 0x2029 || r.toNat = 0x202F || r.toNat = 0x205F || r.toNat = 0x3000

/-- Go `strings.TrimSpace`: the string without its leading and trailing white space. -/
def TrimSpace (s : List Char) : List Char :=
  ((s.dropWhile IsSpace).reverse.dropWhile IsSpace).reverse

/-- Go `strings.Split(s, sep)` for a separator of one rune: the pieces of `s`
between the occurrences of `sep`; a string without `sep` (the empty string
too) gives one piece. -/
def Split (s : List Char) (sep : Char) : List (List Char) :=
  match s with
  | [] => [[]]
  | c :: cs =>
    if c = sep then [] :: Split cs sep
    else
      match Split cs sep with
      | [] => [[c]]
      | p :: ps => (c :: p) :: ps

/-- Go `unicode.ToUpper` on one rune. ASCII is mapped by the library function
itself. Above ASCII the library consults its case table; the handler compares
the upper-cased command name with ASCII words only, so what matters of the
table is which runes above ASCII have an ASCII upper case: U+0131 (dotless i,
upper case `I`) and U+017F (long s, upper case `S`). Every other rune above
ASCII has an upper case above ASCII and is left in place here. -/
def unicodeToUpper (r : Char) : Char :=
  if r.toNat ≤ 0x7F then
    if 'a'.toNat ≤ r.toNat ∧ r.toNat ≤ 'z'.toNat then Char.ofNat (r.toNat - 32) else r
  else if r.toNat = 0x131 then 'I'
  else if r.toNat = 0x17F then 'S'
  else r

/-- Go `strings.ToUpper`: every rune mapped to its upper case. -/
def ToUpper (s : List Char) : List Char :=
  s.map unicodeToUpper

/-- The format `"$%d\r\n%s\r\n"` of line 48 applied to a number and a string. -/
def Sprintf (n : Nat) (s : List Char) : List Char :=
  '$' :: (Nat.toDigits 10 n ++ ("\r\n".toList ++ (s ++ "\r\n".toList)))

/-- Go `reader.ReadString(delim)` on the bytes still to be read: the line up to
and including the first `delim` together with what remains, or `none` when the
input ends before a `delim` (the call returns an error). -/
def ReadString (delim : Char) : List Char → Option (List Char × List Char)
  | [] => none
  | c :: cs =>
    if c = delim then some ([c], cs)
    else
      match ReadString delim cs with
      | none => none
      | some (line, rest) => some (c :: line, rest)

/-- The lines that successive calls of `reader.ReadString(delim)` return until
the call that fails: each line ends in `delim`, and input after the last
`delim` is never returned without an error. -/
def readLines (delim : Char) : List Char → List (List Char)
  | [] => []
  | c :: cs =>
    if c = delim then [c] :: readLines delim cs
    else
      match readLines delim cs with
      | [] => []
      | line :: rest => (c :: line) :: rest

/-! ## Data model -/

/-- The Go map `map[string]string`. -/
abbrev Map := List Char → Option (List Char)

/-- The map of `make(map[string]string)`. -/
def Map.empty : Map := fun _ => none

/-- The assignment `store[key] = value`. -/
def Map.set (store : Map) (key value : List Char) : Map :=
  fun k => if k = key then some value else store k

/-- The statement `delete(store, key)`. -/
def Map.delete (store : Map) (key : List Char) : Map :=
  fun k => if k = key then none else store k

/-- The struct `Command`. Its field `Result`, the reply conduit, is embedded by
the list of strings sent on it. -/
structure Command where
  Name : List Char
  Key : List Char
  Value : List Char
deriving DecidableEq, Repr

/-- The three channels of `KeyValueStore` a request can be sent on. -/
inductive Chan where
  | set
  | get
  | del
deriving DecidableEq, Repr

/-- The Store task: the map it owns and the strings it still has to send on a
reply conduit whose only receive has already happened. With `unsent` non-empty
the task is blocked forever in that send and never returns to its `select`. -/
structure KeyValueStore where
  store : Map
  unsent : List (List Char)

/-- The Store of `NewKeyValueStore` once `Start` waits in its `select`. -/
def NewKeyValueStore : KeyValueStore :=
  { store := Map.empty, unsent := [] }

/-! ## `KeyValueStore.Start` -/

/-- One iteration of the loop of `Start` (lines 39-52) for the command `cmd`
received on channel `ch`: the map afterwards and the strings sent on
`cmd.Result`, in order. -/
def KeyValueStore.Start (store : Map) (ch : Chan) (cmd : Command) :
    Map × List (List Char) :=
  match ch with
  | .set => (store.set cmd.Key cmd.Value, ["Ok\r\n".toList])
  | .get =>
    let value := (store cmd.Key).getD []
    let ok := (store cmd.Key).isSome
    (store,
      (if !ok then ["$-1\r\n".toList] else []) ++ [Sprintf (len value) value])
  | .del => (store.delete cmd.Key, [":1\r\n".toList])

/-! ## `HandleConnection` -/

/-- Where the handler is after an iteration of its loop. -/
inductive Status where
  /-- back at the top of the loop, about to read the next line -/
  | awaiting
  /-- left by `return`: the deferred `conn.Close()` has run -/
  | returned
  /-- run-time panic: index out of range -/
  | panicked
  /-- blocked forever in a channel operation -/
  | blocked
deriving DecidableEq, Repr

/-- What one iteration of the handler's loop did. -/
structure Step where
  status : Status
  /-- the bytes written to the connection and flushed -/
  written : List Char
  /-- the request sent to the Store, if one was sent -/
  sent : Option (Chan × Command)
  kvs : KeyValueStore

/-- The handler's `kvs.ch <- cmd` followed by `response := <-result`, and the
write of the response (lines 80-84, 88-97, 100-108). The send completes only
when the Store is in its `select`; the Store then runs one iteration, its first
send on the conduit is received, and any further send stays unsent. -/
def HandleConnection.request (kvs : KeyValueStore) (ch : Chan) (cmd : Command) : Step :=
  match kvs.unsent with
  | _ :: _ => { status := .blocked, written := [], sent := none, kvs := kvs }
  | [] =>
    match KeyValueStore.Start kvs.store ch cmd with
    | (store, []) =>
      { status := .blocked, written := [], sent := some (ch, cmd),
        kvs := { store := store, unsent := [] } }
    | (store, response :: more) =>
      { status := .awaiting, written := response, sent := some (ch, cmd),
        kvs := { store := store, unsent := more } }

/-- One iteration of the loop of `HandleConnection` (lines 70-115) for the line
`command` that `ReadString` returned. -/
def HandleConnection.iteration (kvs : KeyValueStore) (command : List Char) : Step :=
  let command := TrimSpace command
  let parts := Split command ' '
  match parts[0]? with
  | none => { status := .panicked, written := [], sent := none, kvs := kvs }
  | some name =>
    if ToUpper name = "GET".toList then
      match parts[1]? with
      | none => { status := .panicked, written := [], sent := none, kvs := kvs }
      | some key =>
        HandleConnection.request kvs .get { Name := "GET".toList, Key := key, Value := [] }
    else if ToUpper name = "SET".toList then
      match parts[1]?, parts[2]? with
      | some key, some value =>
        HandleConnection.request kvs .set { Name := "SET".toList, Key := key, Value := value }
      | _, _ => { status := .panicked, written := [], sent := none, kvs := kvs }
    else if ToUpper name = "DEL".toList then
      match parts[1]? with
      | none => { status := .panicked, written := [], sent := none, kvs := kvs }
      | some key =>
        HandleConnection.request kvs .del { Name := "DEL".toList, Key := key, Value := [] }
    else if ToUpper name = "Quit".toList then
      { status := .returned, written := [], sent := none, kvs := kvs }
    else
      { status := .awaiting, written := "Error : Unknown Command\r\n".toList, sent := none,
        kvs := kvs }

/-- What a run of the handler did. -/
structure Run where
  status : Status
  /-- all bytes written to the connection, in order -/
  written : List Char
  /-- all requests sent to the Store, in order -/
  sent : List (Chan × Command)
  kvs : KeyValueStore

/-- The loop of `HandleConnection` (lines 62-116) over the lines that
`ReadString` returns; at the end of the list the read fails and the handler
returns. -/
def HandleConnection.loop (kvs : KeyValueStore) : List (List Char) → Run
  | [] => { status := .returned, written := [], sent := [], kvs := kvs }
  | command :: rest =>
    let step := HandleConnection.iteration kvs command
    match step.status with
    | .awaiting =>
      let run := HandleConnection.loop step.kvs rest
      { status := run.status, written := step.written ++ run.written,
        sent := step.sent.toList ++ run.sent, kvs := run.kvs }
    | status =>
      { status := status, written := step.written, sent := step.sent.toList,
        kvs := step.kvs }

/-- The function `HandleConnection` on a connection whose client sends the bytes
`conn` and then closes. -/
def HandleConnection (conn : List Char) (kvs : KeyValueStore) : Run :=
  HandleConnection.loop kvs (readLines '\n' conn)

/-! ## Vocabulary of the properties -/

/-- Whether the last rune of a string is white space. -/
def endsInSpace (s : List Char) : Bool :=
  match s.getLast? with
  | some c => IsSpace c
  | none => false

/-- A key or value that a request line carries unchanged as one argument: it is
not empty, has no space character in it, and does not end in white space. -/
def Token (s : List Char) : Prop :=
  s ≠ [] ∧ ' ' ∉ s ∧ endsInSpace s = false

instance (s : List Char) : Decidable (Token s) := by
  unfold Token
  infer_instance

/-- Whether two strings differ at most in the case of their ASCII letters: they
have the same length and, rune by rune, the same upper case under the ASCII
case mapping. -/
def sameUpToCase : List Char → List Char → Bool
  | [], [] => true
  | a :: as, b :: bs => decide (a.toUpper = b.toUpper) && sameUpToCase as bs
  | _, _ => false

/-! ## Lemmas on the library functions -/

theorem Split_ne_nil (s : List Char) (sep : Char) : Split s sep ≠ [] := by
  cases s with
  | nil => simp [Split]
  | cons c cs =>
    unfold Split
    split
    · simp
    · split <;> simp

theorem Split_of_not_mem (s : List Char) (sep : Char) (h : sep ∉ s) : Split s sep = [s] := by
  induction s with
  | nil => rfl
  | cons c cs ih =>
    have hc : ¬ c = sep := fun e => h (by simp [e])
    have hcs : sep ∉ cs := fun e => h (by simp [e])
    simp [Split, hc, ih hcs]

theorem Split_append_sep (a b : List Char) (sep : Char) (h : sep ∉ a) :
    Split (a ++ sep :: b) sep = a :: Split b sep := by
  induction a with
  | nil => simp [Split]
  | cons c cs ih =>
    have hc : ¬ c = sep := fun e => h (by simp [e])
    have hcs : sep ∉ cs := fun e => h (by simp [e])
    simp [Split, hc, ih hcs]

theorem dropWhile_append_of_all (p : Char → Bool) (l₁ l₂ : List Char)
    (h : ∀ c ∈ l₁, p c = true) : (l₁ ++ l₂).dropWhile p = l₂.dropWhile p := by
  induction l₁ with
  | nil => rfl
  | cons c cs ih =>
    have hc : p c = true := h c (by simp)
    simp only [List.cons_append, List.dropWhile_cons, hc, if_true]
    exact ih (fun x hx => h x (by simp [hx]))

/-- Trimming leaves a string that neither starts nor ends in white space, and
removes white space that follows it. -/
theorem TrimSpace_append_spaces (c : Char) (s ws : List Char) (hc : IsSpace c = false)
    (hs : endsInSpace (c :: s) = false) (hws : ∀ x ∈ ws, IsSpace x = true) :
    TrimSpace (c :: s ++ ws) = c :: s := by
  unfold TrimSpace
  have h1 : (c :: s ++ ws).dropWhile IsSpace = c :: s ++ ws := by
    simp [List.dropWhile_cons, hc]
  rw [h1, List.reverse_append,
    dropWhile_append_of_all IsSpace ws.reverse (c :: s).reverse (by simpa using hws)]
  have h2 : ∃ d r, (c :: s).reverse = d :: r ∧ IsSpace d = false := by
    cases hrev : (c :: s).reverse with
    | nil => simp at hrev
    | cons d r =>
      refine ⟨d, r, rfl, ?_⟩
      have hl : (c :: s).getLast? = some d := by
        rw [← List.head?_reverse, hrev]; rfl
      simpa [endsInSpace, hl] using hs
  obtain ⟨d, r, hrev, hd⟩ := h2
  rw [hrev, List.dropWhile_cons, hd]
  simp only [Bool.false_eq_true, if_false]
  rw [← hrev, List.reverse_reverse]

theorem readLines_append_delim (delim : Char) (line rest : List Char) (h : delim ∉ line) :
    readLines delim (line ++ delim :: rest) = (line ++ [delim]) :: readLines delim rest := by
  induction line with
  | nil => simp [readLines]
  | cons c cs ih =>
    have hc : ¬ c = delim := fun e => h (by simp [e])
    have hcs : delim ∉ cs := fun e => h (by simp [e])
    simp [readLines, hc, ih hcs]

/-- The lines of `readLines` are those of successive `ReadString` calls. -/
theorem readLines_eq_ReadString (delim : Char) (input : List Char) :
    readLines delim input =
      match ReadString delim input with
      | none => []
      | some (line, rest) => line :: readLines delim rest := by
  induction input with
  | nil => rfl
  | cons c cs ih =>
    by_cases hc : c = delim
    · simp [readLines, ReadString, hc]
    · simp only [readLines, ReadString, hc, if_false]
      rw [ih]
      cases ReadString delim cs with
      | none => rfl
      | some p => rfl

theorem endsInSpace_append (a s : List Char) (hs : s ≠ []) :
    endsInSpace (a ++ s) = endsInSpace s := by
  simp [endsInSpace, List.getLast?_append_of_ne_nil a hs]

/-- The parts of a line made of a word, one space and one token. -/
theorem parts_one_argument (c : Char) (w k : List Char) (hc : IsSpace c = false)
    (hw : ' ' ∉ c :: w) (hk : Token k) :
    Split (TrimSpace (c :: w ++ ' ' :: k ++ ['\n'])) ' ' = [c :: w, k] := by
  obtain ⟨hne, hsp, hend⟩ := hk
  have e : c :: w ++ ' ' :: k ++ ['\n'] = c :: (w ++ ' ' :: k) ++ ['\n'] := by simp
  have hlast : endsInSpace (c :: (w ++ ' ' :: k)) = false := by
    have := endsInSpace_append (c :: w ++ [' ']) k hne
    simp only [List.cons_append, List.append_assoc, List.singleton_append,
      List.nil_append] at this
    rw [this]; exact hend
  rw [e, TrimSpace_append_spaces c (w ++ ' ' :: k) ['\n'] hc hlast (by decide)]
  have e2 : c :: (w ++ ' ' :: k) = (c :: w) ++ ' ' :: k := by simp
  rw [e2, Split_append_sep _ _ _ hw, Split_of_not_mem _ _ hsp]

/-- The parts of a line made of a word and two tokens, one space between each. -/
theorem parts_two_arguments (c : Char) (w k v : List Char) (hc : IsSpace c = false)
    (hw : ' ' ∉ c :: w) (hk : ' ' ∉ k) (hv : Token v) :
    Split (TrimSpace (c :: w ++ ' ' :: k ++ ' ' :: v ++ ['\n'])) ' ' = [c :: w, k, v] := by
  obtain ⟨hne, hsp, hend⟩ := hv
  have e : c :: w ++ ' ' :: k ++ ' ' :: v ++ ['\n'] = c :: (w ++ ' ' :: k ++ ' ' :: v) ++ ['\n'] := by
    simp
  have hlast : endsInSpace (c :: (w ++ ' ' :: k ++ ' ' :: v)) = false := by
    have := endsInSpace_append (c :: w ++ ' ' :: k ++ [' ']) v hne
    simp only [List.cons_append, List.append_assoc, List.singleton_append,
      List.nil_append] at this
    simp only [List.append_assoc, List.cons_append]
    rw [this]; exact hend
  rw [e, TrimSpace_append_spaces c _ ['\n'] hc hlast (by decide)]
  have e2 : c :: (w ++ ' ' :: k ++ ' ' :: v) = (c :: w) ++ ' ' :: (k ++ ' ' :: v) := by simp
  rw [e2, Split_append_sep _ _ _ hw, Split_append_sep _ _ _ hk, Split_of_not_mem _ _ hsp]

/-- The handler's iteration on the line `GET k` is the GET request for `k`. -/
theorem iteration_GET (kvs : KeyValueStore) (k : List Char) (hk : Token k) :
    HandleConnection.iteration kvs ("GET ".toList ++ k ++ "\n".toList) =
      HandleConnection.request kvs .get { Name := "GET".toList, Key := k, Value := [] } := by
  have hp := parts_one_argument 'G' ['E', 'T'] k (by decide) (by decide) hk
  have e : "GET ".toList ++ k ++ "\n".toList = 'G' :: ['E', 'T'] ++ ' ' :: k ++ ['\n'] := by
    simp
  unfold HandleConnection.iteration
  simp only [e, hp]
  rfl

/-- The handler's iteration on the line `DEL k` is the DEL request for `k`. -/
theorem iteration_DEL (kvs : KeyValueStore) (k : List Char) (hk : Token k) :
    HandleConnection.iteration kvs ("DEL ".toList ++ k ++ "\n".toList) =
      HandleConnection.request kvs .del { Name := "DEL".toList, Key := k, Value := [] } := by
  have hp := parts_one_argument 'D' ['E', 'L'] k (by decide) (by decide) hk
  have e : "DEL ".toList ++ k ++ "\n".toList = 'D' :: ['E', 'L'] ++ ' ' :: k ++ ['\n'] := by
    simp
  unfold HandleConnection.iteration
  simp only [e, hp]
  rfl

/-- The handler's iteration on the line `SET k v` is the SET request for `k` and `v`. -/
theorem iteration_SET (kvs : KeyValueStore) (k v : List Char) (hk : ' ' ∉ k) (hv : Token v) :
    HandleConnection.iteration kvs ("SET ".toList ++ k ++ " ".toList ++ v ++ "\n".toList) =
      HandleConnection.request kvs .set { Name := "SET".toList, Key := k, Value := v } := by
  have hp := parts_two_arguments 'S' ['E', 'T'] k v (by decide) (by decide) hk hv
  have e : "SET ".toList ++ k ++ " ".toList ++ v ++ "\n".toList =
      'S' :: ['E', 'T'] ++ ' ' :: k ++ ' ' :: v ++ ['\n'] := by
    simp
  unfold HandleConnection.iteration
  simp only [e, hp]
  rfl

theorem unicodeToUpper_ascii_ne_u :
    ∀ n, n ≤ 0x7F → unicodeToUpper (Char.ofNat n) ≠ 'u' := by
  decide

/-- No rune has the lower-case letter `u` as its upper case. -/
theorem unicodeToUpper_ne_u (r : Char) : unicodeToUpper r ≠ 'u' := by
  by_cases h : r.toNat ≤ 0x7F
  · have := unicodeToUpper_ascii_ne_u r.toNat h
    rwa [Char.ofNat_toNat] at this
  · unfold unicodeToUpper
    rw [if_neg h]
    split
    · decide
    · split
      · decide
      · intro e
        rw [e] at h
        exact h (by decide)

/-- The word `Quit` of line 110 is the upper case of no string. -/
theorem ToUpper_ne_Quit (s : List Char) : ToUpper s ≠ "Quit".toList := by
  intro h
  match s, h with
  | [_, b, _, _], h =>
    simp only [ToUpper, List.map_cons, List.map_nil] at h
    have hb : unicodeToUpper b = 'u' := by
      have := congrArg (fun l => l[1]?) h
      simpa using this
    exact unicodeToUpper_ne_u b hb
  | [], h => simp [ToUpper] at h
  | [_], h => simp [ToUpper] at h
  | [_, _], h => simp [ToUpper] at h
  | [_, _, _], h => simp [ToUpper] at h
  | _ :: _ :: _ :: _ :: _ :: _, h => simp [ToUpper] at h

/-- The length `len` is the size in bytes of the UTF-8 encoding of the string. -/
theorem len_eq_utf8ByteSize (s : List Char) : len s = (String.mk s).utf8ByteSize := by
  induction s with
  | nil => rfl
  | cons c cs ih =>
    simp only [len, List.map_cons, List.sum_cons] at ih ⊢
    rw [ih, Nat.add_comm]
    rfl

/-- Two lines without an inner newline are read as two lines. -/
theorem readLines_two (l₁ l₂ : List Char) (h₁ : '\n' ∉ l₁) (h₂ : '\n' ∉ l₂) :
    readLines '\n' (l₁ ++ "\n".toList ++ (l₂ ++ "\n".toList)) =
      [l₁ ++ "\n".toList, l₂ ++ "\n".toList] := by
  have e : l₁ ++ "\n".toList ++ (l₂ ++ "\n".toList) = l₁ ++ '\n' :: (l₂ ++ '\n' :: []) := by
    simp
  rw [e, readLines_append_delim _ _ _ h₁, readLines_append_delim _ _ _ h₂]
  simp [readLines]

/-! ## The claims -/

/-- C1 (as amended): for every map, with the Store waiting in its `select`, and
every key `k` and value `v` that are tokens (not empty, no space character, not
ending in white space) without a newline, when the handler processes the line
`SET k v` and then the line `GET k`, the reply written for the GET is exactly
`$`, the decimal byte length of `v`, CR LF, `v`, CR LF; on the connection that
sends the two lines the handler writes `Ok` CR LF and then that reply. -/
theorem C1_set_then_get_round_trip (store : Map) (k v : List Char)
    (hk : Token k) (hv : Token v) (hkn : '\n' ∉ k) (hvn : '\n' ∉ v) :
    (HandleConnection.iteration
        (HandleConnection.iteration { store := store, unsent := [] }
          ("SET ".toList ++ k ++ " ".toList ++ v ++ "\n".toList)).kvs
        ("GET ".toList ++ k ++ "\n".toList)).written
      = "$".toList ++ Nat.toDigits 10 (len v) ++ "\r\n".toList ++ v ++ "\r\n".toList
    ∧ (HandleConnection
        ("SET ".toList ++ k ++ " ".toList ++ v ++ "\n".toList
          ++ ("GET ".toList ++ k ++ "\n".toList))
        { store := store, unsent := [] }).written
      = "Ok\r\n".toList
          ++ ("$".toList ++ Nat.toDigits 10 (len v) ++ "\r\n".toList ++ v ++ "\r\n".toList) := by
  have hset := iteration_SET { store := store, unsent := [] } k v hk.2.1 hv
  have hget := iteration_GET { store := store.set k v, unsent := [] } k hk
  have hstep : HandleConnection.iteration { store := store, unsent := [] }
      ("SET ".toList ++ k ++ " ".toList ++ v ++ "\n".toList) =
      { status := .awaiting, written := "Ok\r\n".toList,
        sent := some (.set, { Name := "SET".toList, Key := k, Value := v }),
        kvs := { store := store.set k v, unsent := [] } } := by
    rw [hset]; rfl
  have hreply : (HandleConnection.iteration { store := store.set k v, unsent := [] }
      ("GET ".toList ++ k ++ "\n".toList)) =
      { status := .awaiting,
        written := "$".toList ++ Nat.toDigits 10 (len v) ++ "\r\n".toList ++ v ++ "\r\n".toList,
        sent := some (.get, { Name := "GET".toList, Key := k, Value := [] }),
        kvs := { store := store.set k v, unsent := [] } } := by
    rw [hget]
    simp [HandleConnection.request, KeyValueStore.Start, Map.set, Sprintf]
  refine ⟨by rw [hstep, hreply], ?_⟩
  have hl₁ : '\n' ∉ "SET ".toList ++ k ++ " ".toList ++ v := by
    simp [hkn, hvn]
  have hl₂ : '\n' ∉ "GET ".toList ++ k := by
    simp [hkn]
  unfold HandleConnection
  rw [readLines_two _ _ hl₁ hl₂]
  simp only [HandleConnection.loop, hstep, hreply]
  simp

/-- C1, witness: the key `foo` and the value `bar` on the empty Store. -/
theorem C1_set_then_get_round_trip_witness :
    (HandleConnection.iteration
        (HandleConnection.iteration { store := Map.empty, unsent := [] }
          ("SET ".toList ++ "foo".toList ++ " ".toList ++ "bar".toList ++ "\n".toList)).kvs
        ("GET ".toList ++ "foo".toList ++ "\n".toList)).written
      = "$".toList ++ Nat.toDigits 10 (len "bar".toList) ++ "\r\n".toList ++ "bar".toList
          ++ "\r\n".toList
    ∧ (HandleConnection
        ("SET ".toList ++ "foo".toList ++ " ".toList ++ "bar".toList ++ "\n".toList
          ++ ("GET ".toList ++ "foo".toList ++ "\n".toList))
        { store := Map.empty, unsent := [] }).written
      = "Ok\r\n".toList
          ++ ("$".toList ++ Nat.toDigits 10 (len "bar".toList) ++ "\r\n".toList
            ++ "bar".toList ++ "\r\n".toList) :=
  C1_set_then_get_round_trip Map.empty "foo".toList "bar".toList (by decide) (by decide)
    (by decide) (by decide)

/-- C1, counterexample: the value `a b` is a non-empty string without a newline,
and after the line `SET k a b` the reply written for `GET k` encodes `a`, not
`a b`. Likewise the value `a` followed by a tab: the tab is trimmed from the
line and the reply encodes `a`. -/
theorem C1_counterexample_value_with_space :
    "k".toList ≠ [] ∧ "a b".toList ≠ [] ∧ '\n' ∉ "k".toList ∧ '\n' ∉ "a b".toList
    ∧ (HandleConnection.iteration
        (HandleConnection.iteration NewKeyValueStore
          ("SET ".toList ++ "k".toList ++ " ".toList ++ "a b".toList ++ "\n".toList)).kvs
        ("GET ".toList ++ "k".toList ++ "\n".toList)).written = "$1\r\na\r\n".toList
    ∧ (HandleConnection.iteration
        (HandleConnection.iteration NewKeyValueStore
          ("SET ".toList ++ "k".toList ++ " ".toList ++ "a b".toList ++ "\n".toList)).kvs
        ("GET ".toList ++ "k".toList ++ "\n".toList)).written
      ≠ "$".toList ++ Nat.toDigits 10 (len "a b".toList) ++ "\r\n".toList ++ "a b".toList
          ++ "\r\n".toList
    ∧ "a\t".toList ≠ [] ∧ '\n' ∉ "a\t".toList
    ∧ (HandleConnection.iteration
        (HandleConnection.iteration NewKeyValueStore
          ("SET ".toList ++ "k".toList ++ " ".toList ++ "a\t".toList ++ "\n".toList)).kvs
        ("GET ".toList ++ "k".toList ++ "\n".toList)).written = "$1\r\na\r\n".toList
    ∧ (HandleConnection.iteration
        (HandleConnection.iteration NewKeyValueStore
          ("SET ".toList ++ "k".toList ++ " ".toList ++ "a\t".toList ++ "\n".toList)).kvs
        ("GET ".toList ++ "k".toList ++ "\n".toList)).written
      ≠ "$".toList ++ Nat.toDigits 10 (len "a\t".toList) ++ "\r\n".toList ++ "a\t".toList
          ++ "\r\n".toList := by
  decide

/-- C2, at the failing input: for GET of an absent key the Store sends two
strings on the reply conduit, the miss reply and then the encoding of the empty
value; the second send is never received, the Store does not return to its
`select`, and a handler's next request blocks. -/
theorem C2_get_miss_sends_twice :
    (KeyValueStore.Start Map.empty .get
        { Name := "GET".toList, Key := "k".toList, Value := [] }).2
      = ["$-1\r\n".toList, "$0\r\n\r\n".toList]
    ∧ (HandleConnection.request NewKeyValueStore .get
        { Name := "GET".toList, Key := "k".toList, Value := [] }).kvs.unsent
      = ["$0\r\n\r\n".toList]
    ∧ (HandleConnection "GET k\nSET k v\n".toList NewKeyValueStore).status = .blocked
    ∧ (HandleConnection "GET k\nSET k v\n".toList NewKeyValueStore).written
      = "$-1\r\n".toList := by
  decide

/-- C3 (as amended): for every map, with the Store waiting in its `select`, and
every key `k` that is a token (not empty, no space character, not ending in
white space) and absent from the map, the bytes the handler writes in reply to
the line `GET k` are exactly `$-1` CR LF, and the request it sent is the GET
of `k`. -/
theorem C3_get_miss_reply (store : Map) (k : List Char) (hk : Token k)
    (habsent : store k = none) :
    (HandleConnection.iteration { store := store, unsent := [] }
        ("GET ".toList ++ k ++ "\n".toList)).written = "$-1\r\n".toList
    ∧ (HandleConnection.iteration { store := store, unsent := [] }
        ("GET ".toList ++ k ++ "\n".toList)).sent
      = some (.get, { Name := "GET".toList, Key := k, Value := [] }) := by
  rw [iteration_GET _ k hk]
  simp [HandleConnection.request, KeyValueStore.Start, habsent]

/-- C3, witness: the key `k` on the empty map. -/
theorem C3_get_miss_reply_witness :
    Map.empty "k".toList = none
    ∧ (HandleConnection.iteration { store := Map.empty, unsent := [] }
        ("GET ".toList ++ "k".toList ++ "\n".toList)).written = "$-1\r\n".toList
    ∧ (HandleConnection.iteration { store := Map.empty, unsent := [] }
        ("GET ".toList ++ "k".toList ++ "\n".toList)).sent
      = some (.get, { Name := "GET".toList, Key := "k".toList, Value := [] }) :=
  ⟨rfl, C3_get_miss_reply Map.empty "k".toList (by decide) rfl⟩

/-- C3, counterexample: the key `a b` is absent from the map that holds only
`a`, and the handler's reply to the line `GET a b` is the hit reply for `a`.
Likewise the absent key `a` followed by a tab: the tab is trimmed from the
line and `a` is looked up. -/
theorem C3_counterexample_key_with_space :
    (Map.empty.set "a".toList "x".toList) "a b".toList = none
    ∧ (HandleConnection.iteration
        { store := Map.empty.set "a".toList "x".toList, unsent := [] }
        ("GET ".toList ++ "a b".toList ++ "\n".toList)).written = "$1\r\nx\r\n".toList
    ∧ (HandleConnection.iteration
        { store := Map.empty.set "a".toList "x".toList, unsent := [] }
        ("GET ".toList ++ "a b".toList ++ "\n".toList)).written ≠ "$-1\r\n".toList
    ∧ (Map.empty.set "a".toList "x".toList) "a\t".toList = none
    ∧ (HandleConnection.iteration
        { store := Map.empty.set "a".toList "x".toList, unsent := [] }
        ("GET ".toList ++ "a\t".toList ++ "\n".toList)).written = "$1\r\nx\r\n".toList := by
  decide

/-- C4, at the failing inputs: on a line with the command name GET, SET or DEL
and too few arguments the handler panics (index out of range); it writes
nothing, and lines that follow are not processed. -/
theorem C4_missing_argument_panics :
    (HandleConnection.iteration NewKeyValueStore "GET\n".toList).status = .panicked
    ∧ (HandleConnection.iteration NewKeyValueStore "GET\n".toList).written = []
    ∧ (HandleConnection.iteration NewKeyValueStore "del\n".toList).status = .panicked
    ∧ (HandleConnection.iteration NewKeyValueStore "SET\n".toList).status = .panicked
    ∧ (HandleConnection.iteration NewKeyValueStore "Set k\n".toList).status = .panicked
    ∧ (HandleConnection "GET\nSET k v\n".toList NewKeyValueStore).status = .panicked
    ∧ (HandleConnection "GET\nSET k v\n".toList NewKeyValueStore).written = []
    ∧ (HandleConnection "GET\nSET k v\n".toList NewKeyValueStore).sent = [] := by
  decide

/-- C5, on the code: no iteration of the handler ends in `return`, whatever
the line; on the line `QUIT` (and `quit`, `Quit`) the handler writes the
unknown-command error and stays in its loop, so the line after it is read and
its request sent. -/
theorem C5_quit_is_answered_with_error :
    (∀ (kvs : KeyValueStore) (command : List Char),
      (HandleConnection.iteration kvs command).status ≠ .returned)
    ∧ (HandleConnection.iteration NewKeyValueStore "QUIT\n".toList).status = .awaiting
    ∧ (HandleConnection.iteration NewKeyValueStore "QUIT\n".toList).written
      = "Error : Unknown Command\r\n".toList
    ∧ (HandleConnection.iteration NewKeyValueStore "quit\n".toList).written
      = "Error : Unknown Command\r\n".toList
    ∧ (HandleConnection.iteration NewKeyValueStore "Quit\n".toList).written
      = "Error : Unknown Command\r\n".toList
    ∧ (HandleConnection "QUIT\nSET k v\n".toList NewKeyValueStore).written
      = "Error : Unknown Command\r\nOk\r\n".toList
    ∧ (HandleConnection "QUIT\nSET k v\n".toList NewKeyValueStore).sent
      = [(.set, { Name := "SET".toList, Key := "k".toList, Value := "v".toList })] := by
  refine ⟨?_, by decide, by decide, by decide, by decide, by decide, by decide⟩
  intro kvs command
  unfold HandleConnection.iteration
  simp only
  split
  · simp
  · split
    · split
      · simp
      · unfold HandleConnection.request
        split
        · simp
        · split <;> simp
    · split
      · split
        · unfold HandleConnection.request
          split
          · simp
          · split <;> simp
        · simp
      · split
        · split
          · simp
          · unfold HandleConnection.request
            split
            · simp
            · split <;> simp
        · split
          · rename_i h
            exact absurd h (ToUpper_ne_Quit _)
          · simp

/-- C6: for every line whose command name (the first part of the trimmed line)
has an upper case other than GET, SET, DEL and QUIT, the handler writes exactly
the unknown-command error, sends no request, leaves the Store as it was and is
back awaiting a command: the run over this line and further lines is the error
followed by the run over the further lines from the same Store. -/
theorem C6_unknown_command (kvs : KeyValueStore) (command name : List Char)
    (args : List (List Char)) (rest : List (List Char))
    (hparts : Split (TrimSpace command) ' ' = name :: args)
    (hget : ToUpper name ≠ "GET".toList) (hset : ToUpper name ≠ "SET".toList)
    (hdel : ToUpper name ≠ "DEL".toList) (_hquit : ToUpper name ≠ "QUIT".toList) :
    HandleConnection.iteration kvs command =
      { status := .awaiting, written := "Error : Unknown Command\r\n".toList, sent := none,
        kvs := kvs }
    ∧ HandleConnection.loop kvs (command :: rest) =
      { status := (HandleConnection.loop kvs rest).status,
        written := "Error : Unknown Command\r\n".toList ++ (HandleConnection.loop kvs rest).written,
        sent := (HandleConnection.loop kvs rest).sent,
        kvs := (HandleConnection.loop kvs rest).kvs } := by
  have hstep : HandleConnection.iteration kvs command =
      { status := .awaiting, written := "Error : Unknown Command\r\n".toList, sent := none,
        kvs := kvs } := by
    unfold HandleConnection.iteration
    simp only [hparts, List.getElem?_cons_zero, hget, hset, hdel, ToUpper_ne_Quit, if_false]
  refine ⟨hstep, ?_⟩
  simp only [HandleConnection.loop, hstep]
  simp

/-- C6, witness: the line `FOO bar`, followed by the line `SET k v`. -/
theorem C6_unknown_command_witness :
    Split (TrimSpace "FOO bar\n".toList) ' ' = ["FOO".toList, "bar".toList]
    ∧ HandleConnection.iteration NewKeyValueStore "FOO bar\n".toList =
      { status := .awaiting, written := "Error : Unknown Command\r\n".toList, sent := none,
        kvs := NewKeyValueStore }
    ∧ HandleConnection.loop NewKeyValueStore ["FOO bar\n".toList, "SET k v\n".toList] =
      { status := (HandleConnection.loop NewKeyValueStore ["SET k v\n".toList]).status,
        written := "Error : Unknown Command\r\n".toList
          ++ (HandleConnection.loop NewKeyValueStore ["SET k v\n".toList]).written,
        sent := (HandleConnection.loop NewKeyValueStore ["SET k v\n".toList]).sent,
        kvs := (HandleConnection.loop NewKeyValueStore ["SET k v\n".toList]).kvs } :=
  ⟨by decide,
    C6_unknown_command NewKeyValueStore "FOO bar\n".toList "FOO".toList ["bar".toList]
      ["SET k v\n".toList] (by decide) (by decide) (by decide) (by decide) (by decide)⟩

/-- C7: for every map and every command, the Store's iteration for a command
received on the DEL channel sends exactly one string, `:1` CR LF, whether or not
the key is in the map, and that string is what the handler receives and writes. -/
theorem C7_del_reply_is_constant (store : Map) (cmd : Command) :
    (KeyValueStore.Start store .del cmd).2 = [":1\r\n".toList]
    ∧ (HandleConnection.request { store := store, unsent := [] } .del cmd).written
      = ":1\r\n".toList :=
  ⟨rfl, rfl⟩

/-- C8: for every map and key `k`, after the Store has processed DEL(k) the key
is absent from the map and the Store is back in its `select`, and the reply
delivered for the next GET(k) is `$-1` CR LF; so it is when SET(k,v) came
before the DEL. -/
theorem C8_del_removes_key (store : Map) (k v : List Char) :
    (HandleConnection.request { store := store, unsent := [] } .del
        { Name := "DEL".toList, Key := k, Value := [] }).kvs.store k = none
    ∧ (HandleConnection.request { store := store, unsent := [] } .del
        { Name := "DEL".toList, Key := k, Value := [] }).kvs.unsent = []
    ∧ (HandleConnection.request
        (HandleConnection.request { store := store, unsent := [] } .del
          { Name := "DEL".toList, Key := k, Value := [] }).kvs
        .get { Name := "GET".toList, Key := k, Value := [] }).written = "$-1\r\n".toList
    ∧ (HandleConnection.request
        (HandleConnection.request
          (HandleConnection.request { store := store, unsent := [] } .set
            { Name := "SET".toList, Key := k, Value := v }).kvs
          .del { Name := "DEL".toList, Key := k, Value := [] }).kvs
        .get { Name := "GET".toList, Key := k, Value := [] }).written = "$-1\r\n".toList := by
  simp [HandleConnection.request, KeyValueStore.Start, Map.delete, Map.set]

/-- C9: for every map, key `k` and values `v1` and `v2`, the Store answers
SET(k,v1) and then SET(k,v2) each with `Ok` CR LF, the map then holds `v2` under
`k`, and the reply to GET(k) is the encoding of `v2`. -/
theorem C9_overwrite (store : Map) (k v1 v2 : List Char) :
    (HandleConnection.request { store := store, unsent := [] } .set
        { Name := "SET".toList, Key := k, Value := v1 }).written = "Ok\r\n".toList
    ∧ (HandleConnection.request
        (HandleConnection.request { store := store, unsent := [] } .set
          { Name := "SET".toList, Key := k, Value := v1 }).kvs
        .set { Name := "SET".toList, Key := k, Value := v2 }).written = "Ok\r\n".toList
    ∧ (HandleConnection.request
        (HandleConnection.request { store := store, unsent := [] } .set
          { Name := "SET".toList, Key := k, Value := v1 }).kvs
        .set { Name := "SET".toList, Key := k, Value := v2 }).kvs.store k = some v2
    ∧ (HandleConnection.request
        (HandleConnection.request
          (HandleConnection.request { store := store, unsent := [] } .set
            { Name := "SET".toList, Key := k, Value := v1 }).kvs
          .set { Name := "SET".toList, Key := k, Value := v2 }).kvs
        .get { Name := "GET".toList, Key := k, Value := [] }).written
      = "$".toList ++ Nat.toDigits 10 (len v2) ++ "\r\n".toList ++ v2 ++ "\r\n".toList := by
  simp [HandleConnection.request, KeyValueStore.Start, Map.set, Sprintf]

/-- C10: for every map in which the key of the command maps to `v` (the empty
value included), the Store's iteration for a command received on the GET channel
leaves the map as it is and sends exactly one string: `$`, the decimal rendering
of the number of bytes of `v` in UTF-8, CR LF, `v`, CR LF. -/
theorem C10_get_hit_encoding (store : Map) (cmd : Command) (v : List Char)
    (hhit : store cmd.Key = some v) :
    KeyValueStore.Start store .get cmd =
      (store, ["$".toList ++ (Nat.repr (String.mk v).utf8ByteSize).toList ++ "\r\n".toList
        ++ v ++ "\r\n".toList]) := by
  simp [KeyValueStore.Start, hhit, Sprintf, len_eq_utf8ByteSize, Nat.repr, List.asString]

/-- C10, witness: the value `é`, one rune of two bytes, is encoded with the
length 2; the empty value with the length 0. -/
theorem C10_get_hit_encoding_witness :
    (Map.empty.set "k".toList "é".toList) "k".toList = some "é".toList
    ∧ (KeyValueStore.Start (Map.empty.set "k".toList "é".toList) .get
        { Name := "GET".toList, Key := "k".toList, Value := [] }).2 = ["$2\r\né\r\n".toList]
    ∧ (KeyValueStore.Start (Map.empty.set "k".toList []) .get
        { Name := "GET".toList, Key := "k".toList, Value := [] }).2 = ["$0\r\n\r\n".toList] :=
  ⟨by decide,
    by
      rw [C10_get_hit_encoding (Map.empty.set "k".toList "é".toList)
        { Name := "GET".toList, Key := "k".toList, Value := [] } "é".toList (by decide)]
      decide,
    by decide⟩

/-! ## Further lemmas on the library functions -/

/-- White space at the end of a string does not change what trimming gives. -/
theorem TrimSpace_append_of_all (l ws : List Char) (hws : ∀ c ∈ ws, IsSpace c = true) :
    TrimSpace (l ++ ws) = TrimSpace l := by
  have hdrop : ws.dropWhile IsSpace = [] := by
    rw [List.dropWhile_eq_nil_iff]; exact hws
  unfold TrimSpace
  rw [List.dropWhile_append]
  by_cases h : (l.dropWhile IsSpace).isEmpty = true
  · rw [if_pos h, hdrop]
    have : l.dropWhile IsSpace = [] := by simpa using h
    rw [this]
  · rw [if_neg h, List.reverse_append,
      dropWhile_append_of_all IsSpace ws.reverse _ (by simpa using hws)]

/-- White space at the start of a string does not change what trimming gives. -/
theorem TrimSpace_prepend_of_all (ws l : List Char) (hws : ∀ c ∈ ws, IsSpace c = true) :
    TrimSpace (ws ++ l) = TrimSpace l := by
  unfold TrimSpace
  rw [dropWhile_append_of_all IsSpace ws l hws]

theorem dropWhile_append_stop (p : Char → Bool) (a : List Char) (d : Char) (r : List Char)
    (hd : p d = false) : (a ++ d :: r).dropWhile p = a.dropWhile p ++ d :: r := by
  induction a with
  | nil => simp [List.dropWhile_cons, hd]
  | cons c cs ih =>
    by_cases hc : p c = true
    · simp only [List.cons_append, List.dropWhile_cons, hc, if_true]
      exact ih
    · simp [List.dropWhile_cons, hc]

/-- Trimming a string that starts with a word without white space keeps the
word and only trims the end of what follows it. -/
theorem TrimSpace_word_append (c : Char) (w t : List Char)
    (hw : ∀ x ∈ c :: w, IsSpace x = false) :
    TrimSpace (c :: w ++ t) = c :: w ++ (t.reverse.dropWhile IsSpace).reverse := by
  have hc : IsSpace c = false := hw c (by simp)
  unfold TrimSpace
  have h1 : (c :: w ++ t).dropWhile IsSpace = c :: w ++ t := by
    simp [List.dropWhile_cons, hc]
  rw [h1, List.reverse_append]
  cases hrev : (c :: w).reverse with
  | nil => simp at hrev
  | cons d r =>
    have hd : IsSpace d = false := by
      apply hw
      have : d ∈ (c :: w).reverse := by rw [hrev]; simp
      exact List.mem_reverse.mp this
    rw [dropWhile_append_stop IsSpace t.reverse d r hd, List.reverse_append, ← hrev,
      List.reverse_reverse]

/-- Splitting a string that starts with a word without the separator: the word
is the start of the first part. -/
theorem Split_append_of_not_mem (a b : List Char) (sep : Char) (h : sep ∉ a) :
    Split (a ++ b) sep = (a ++ (Split b sep).headD []) :: (Split b sep).tail := by
  induction a with
  | nil =>
    cases hb : Split b sep with
    | nil => exact absurd hb (Split_ne_nil b sep)
    | cons p ps => simp [hb]
  | cons c cs ih =>
    have hc : ¬ c = sep := fun e => h (by simp [e])
    have hcs : sep ∉ cs := fun e => h (by simp [e])
    simp [Split, hc, ih hcs]

theorem toUpper_of_not_ascii (c : Char) (h : ¬ c.toNat ≤ 0x7F) : c.toUpper = c := by
  unfold Char.toUpper
  simp only
  rw [if_neg]
  omega

theorem unicodeToUpper_toUpper_ascii :
    ∀ n, n ≤ 0x7F → unicodeToUpper (Char.ofNat n).toUpper = unicodeToUpper (Char.ofNat n) := by
  decide

theorem IsSpace_toUpper_ascii :
    ∀ n, n ≤ 0x7F → IsSpace (Char.ofNat n).toUpper = IsSpace (Char.ofNat n) := by
  decide

/-- The upper case the handler computes does not see the ASCII case of a rune. -/
theorem unicodeToUpper_toUpper (c : Char) : unicodeToUpper c.toUpper = unicodeToUpper c := by
  by_cases h : c.toNat ≤ 0x7F
  · have := unicodeToUpper_toUpper_ascii c.toNat h
    rwa [Char.ofNat_toNat] at this
  · rw [toUpper_of_not_ascii c h]

theorem IsSpace_toUpper (c : Char) : IsSpace c.toUpper = IsSpace c := by
  by_cases h : c.toNat ≤ 0x7F
  · have := IsSpace_toUpper_ascii c.toNat h
    rwa [Char.ofNat_toNat] at this
  · rw [toUpper_of_not_ascii c h]

/-- Strings that differ only in ASCII letter case have the same upper case. -/
theorem ToUpper_eq_of_sameUpToCase (n₁ n₂ : List Char) (h : sameUpToCase n₁ n₂ = true) :
    ToUpper n₁ = ToUpper n₂ := by
  induction n₁ generalizing n₂ with
  | nil =>
    cases n₂ with
    | nil => rfl
    | cons b bs => simp [sameUpToCase] at h
  | cons a as ih =>
    cases n₂ with
    | nil => simp [sameUpToCase] at h
    | cons b bs =>
      simp only [sameUpToCase, Bool.and_eq_true, decide_eq_true_eq] at h
      have hab : unicodeToUpper a = unicodeToUpper b := by
        rw [← unicodeToUpper_toUpper a, h.1, unicodeToUpper_toUpper b]
      have := ih bs h.2
      simp only [ToUpper] at this ⊢
      simp [hab, this]

/-- Strings that differ only in ASCII letter case have white space at the same
places; in particular none in the one when there is none in the other. -/
theorem no_space_of_sameUpToCase (n₁ n₂ : List Char) (h : sameUpToCase n₁ n₂ = true)
    (h₁ : ∀ x ∈ n₁, IsSpace x = false) : ∀ x ∈ n₂, IsSpace x = false := by
  induction n₁ generalizing n₂ with
  | nil =>
    cases n₂ with
    | nil => simp
    | cons b bs => simp [sameUpToCase] at h
  | cons a as ih =>
    cases n₂ with
    | nil => simp
    | cons b bs =>
      simp only [sameUpToCase, Bool.and_eq_true, decide_eq_true_eq] at h
      have hb : IsSpace b = false := by
        rw [← IsSpace_toUpper b, ← h.1, IsSpace_toUpper a]
        exact h₁ a (by simp)
      intro x hx
      rcases List.mem_cons.mp hx with rfl | hx
      · exact hb
      · exact ih bs h.2 (fun y hy => h₁ y (by simp [hy])) x hx

/-! ## Further lemmas on the handler -/

/-- The iteration depends on the line only through its trimmed form. -/
theorem iteration_of_TrimSpace_eq (kvs : KeyValueStore) (c₁ c₂ : List Char)
    (h : TrimSpace c₁ = TrimSpace c₂) :
    HandleConnection.iteration kvs c₁ = HandleConnection.iteration kvs c₂ := by
  unfold HandleConnection.iteration
  simp only [h]

/-- The iteration depends on the command name only through its upper case. -/
theorem iteration_congr (kvs : KeyValueStore) (c₁ c₂ a₁ a₂ : List Char)
    (args : List (List Char)) (h₁ : Split (TrimSpace c₁) ' ' = a₁ :: args)
    (h₂ : Split (TrimSpace c₂) ' ' = a₂ :: args) (hu : ToUpper a₁ = ToUpper a₂) :
    HandleConnection.iteration kvs c₁ = HandleConnection.iteration kvs c₂ := by
  unfold HandleConnection.iteration
  simp only [h₁, h₂, List.getElem?_cons_zero, List.getElem?_cons_succ, hu]

/-- With the Store in its `select` the request is sent. -/
theorem request_sent (store : Map) (ch : Chan) (cmd : Command) :
    (HandleConnection.request { store := store, unsent := [] } ch cmd).sent = some (ch, cmd) := by
  unfold HandleConnection.request
  simp only
  split <;> rfl

/-- No reply of the Store is the unknown-command error. -/
theorem request_written_ne_error (store : Map) (ch : Chan) (cmd : Command) :
    (HandleConnection.request { store := store, unsent := [] } ch cmd).written
      ≠ "Error : Unknown Command\r\n".toList := by
  cases ch with
  | set => simp [HandleConnection.request, KeyValueStore.Start]
  | del => simp [HandleConnection.request, KeyValueStore.Start]
  | get =>
    cases h : store cmd.Key with
    | none => simp [HandleConnection.request, KeyValueStore.Start, h]
    | some v => simp [HandleConnection.request, KeyValueStore.Start, h, Sprintf]

/-! ## The claims, continued -/

/-- C11 (as amended): a request is sent only for a line with at least one
argument, and a SET request only for a line with at least two; its key is the
first argument and its value the second. With the Store waiting in its
`select`, for every line with at least one argument whose command name is GET
or DEL in any case the handler sends the request for the first argument, and
for every line with at least two arguments whose command name is SET the request
for the first two; arguments after those are ignored, and what the handler
writes is the Store's reply, never the unknown-command error. -/
theorem C11_leading_arguments_are_used (store : Map) (command : List Char) :
    (∀ (ch : Chan) (cmd : Command),
      (HandleConnection.iteration { store := store, unsent := [] } command).sent
          = some (ch, cmd) →
        ∃ name key more, Split (TrimSpace command) ' ' = name :: key :: more
          ∧ cmd.Key = key
          ∧ (ch = .set → ∃ value extra, more = value :: extra ∧ cmd.Value = value))
    ∧ (∀ (name key : List Char) (more : List (List Char)),
        Split (TrimSpace command) ' ' = name :: key :: more →
        (ToUpper name = "GET".toList →
          HandleConnection.iteration { store := store, unsent := [] } command
            = HandleConnection.request { store := store, unsent := [] } .get
                { Name := "GET".toList, Key := key, Value := [] }
          ∧ (HandleConnection.iteration { store := store, unsent := [] } command).sent
            = some (.get, { Name := "GET".toList, Key := key, Value := [] })
          ∧ (HandleConnection.iteration { store := store, unsent := [] } command).written
            ≠ "Error : Unknown Command\r\n".toList)
        ∧ (ToUpper name = "DEL".toList →
          HandleConnection.iteration { store := store, unsent := [] } command
            = HandleConnection.request { store := store, unsent := [] } .del
                { Name := "DEL".toList, Key := key, Value := [] }
          ∧ (HandleConnection.iteration { store := store, unsent := [] } command).sent
            = some (.del, { Name := "DEL".toList, Key := key, Value := [] })
          ∧ (HandleConnection.iteration { store := store, unsent := [] } command).written
            ≠ "Error : Unknown Command\r\n".toList)
        ∧ (ToUpper name = "SET".toList →
          ∀ (value : List Char) (extra : List (List Char)), more = value :: extra →
          HandleConnection.iteration { store := store, unsent := [] } command
            = HandleConnection.request { store := store, unsent := [] } .set
                { Name := "SET".toList, Key := key, Value := value }
          ∧ (HandleConnection.iteration { store := store, unsent := [] } command).sent
            = some (.set, { Name := "SET".toList, Key := key, Value := value })
          ∧ (HandleConnection.iteration { store := store, unsent := [] } command).written
            ≠ "Error : Unknown Command\r\n".toList)) := by
  constructor
  · intro ch cmd hsent
    cases h : Split (TrimSpace command) ' ' with
    | nil => exact absurd h (Split_ne_nil _ _)
    | cons name args =>
      cases args with
      | nil =>
        unfold HandleConnection.iteration at hsent
        simp only [h, List.getElem?_cons_zero, List.getElem?_cons_succ,
          List.getElem?_nil] at hsent
        split_ifs at hsent
      | cons key more =>
        refine ⟨name, key, more, rfl, ?_⟩
        unfold HandleConnection.iteration at hsent
        simp only [h, List.getElem?_cons_zero, List.getElem?_cons_succ] at hsent
        split_ifs at hsent with hg hs hd hq
        · rw [request_sent] at hsent
          simp only [Option.some.injEq, Prod.mk.injEq] at hsent
          obtain ⟨hch, hcmd⟩ := hsent
          subst hch; subst hcmd
          exact ⟨rfl, fun e => by cases e⟩
        · cases more with
          | nil => simp at hsent
          | cons value extra =>
            simp only [List.getElem?_cons_zero] at hsent
            rw [request_sent] at hsent
            simp only [Option.some.injEq, Prod.mk.injEq] at hsent
            obtain ⟨hch, hcmd⟩ := hsent
            subst hch; subst hcmd
            exact ⟨rfl, fun _ => ⟨value, extra, rfl, rfl⟩⟩
        · rw [request_sent] at hsent
          simp only [Option.some.injEq, Prod.mk.injEq] at hsent
          obtain ⟨hch, hcmd⟩ := hsent
          subst hch; subst hcmd
          exact ⟨rfl, fun e => by cases e⟩
  · intro name key more hparts
    refine ⟨?_, ?_, ?_⟩
    · intro hname
      have hstep : HandleConnection.iteration { store := store, unsent := [] } command
          = HandleConnection.request { store := store, unsent := [] } .get
              { Name := "GET".toList, Key := key, Value := [] } := by
        unfold HandleConnection.iteration
        simp only [hparts, List.getElem?_cons_zero, List.getElem?_cons_succ, hname, if_true]
      rw [hstep]
      exact ⟨rfl, request_sent _ _ _, request_written_ne_error _ _ _⟩
    · intro hname
      have hstep : HandleConnection.iteration { store := store, unsent := [] } command
          = HandleConnection.request { store := store, unsent := [] } .del
              { Name := "DEL".toList, Key := key, Value := [] } := by
        unfold HandleConnection.iteration
        simp only [hparts, List.getElem?_cons_zero, List.getElem?_cons_succ, hname]
        simp
      rw [hstep]
      exact ⟨rfl, request_sent _ _ _, request_written_ne_error _ _ _⟩
    · intro hname value extra hmore
      have hstep : HandleConnection.iteration { store := store, unsent := [] } command
          = HandleConnection.request { store := store, unsent := [] } .set
              { Name := "SET".toList, Key := key, Value := value } := by
        unfold HandleConnection.iteration
        simp only [hparts, hmore, List.getElem?_cons_zero, List.getElem?_cons_succ, hname]
        simp
      rw [hstep]
      exact ⟨rfl, request_sent _ _ _, request_written_ne_error _ _ _⟩

/-- C11, witness: the line `SET k v extra` sends SET(k,v) and the line
`del a b` sends DEL(a). -/
theorem C11_leading_arguments_are_used_witness :
    Split (TrimSpace "SET k v extra\n".toList) ' '
      = ["SET".toList, "k".toList, "v".toList, "extra".toList]
    ∧ (HandleConnection.iteration { store := Map.empty, unsent := [] }
        "SET k v extra\n".toList).sent
      = some (.set, { Name := "SET".toList, Key := "k".toList, Value := "v".toList })
    ∧ (HandleConnection.iteration { store := Map.empty, unsent := [] }
        "del a b\n".toList).sent
      = some (.del, { Name := "DEL".toList, Key := "a".toList, Value := [] }) :=
  ⟨by decide,
    ((((C11_leading_arguments_are_used Map.empty "SET k v extra\n".toList).2
      "SET".toList "k".toList ["v".toList, "extra".toList] (by decide)).2.2 (by decide))
      "v".toList ["extra".toList] rfl).2.1,
    ((((C11_leading_arguments_are_used Map.empty "del a b\n".toList).2
      "del".toList "a".toList ["b".toList] (by decide)).2.1 (by decide))).2.1⟩

/-- C11, counterexample: the lines `GET a b` and `SET k v extra` have more
arguments than the command takes; the handler sends GET(a) and SET(k,v) to the
Store and writes the Store's replies, not the error. -/
theorem C11_counterexample_extra_argument :
    Split (TrimSpace "GET a b\n".toList) ' ' = ["GET".toList, "a".toList, "b".toList]
    ∧ (HandleConnection.iteration NewKeyValueStore "GET a b\n".toList).sent
      = some (.get, { Name := "GET".toList, Key := "a".toList, Value := [] })
    ∧ (HandleConnection.iteration NewKeyValueStore "GET a b\n".toList).written
      = "$-1\r\n".toList
    ∧ (HandleConnection.iteration NewKeyValueStore "GET a b\n".toList).written
      ≠ "Error : Unknown Command\r\n".toList
    ∧ (HandleConnection.iteration NewKeyValueStore "SET k v extra\n".toList).sent
      = some (.set, { Name := "SET".toList, Key := "k".toList, Value := "v".toList })
    ∧ (HandleConnection.iteration NewKeyValueStore "SET k v extra\n".toList).written
      = "Ok\r\n".toList
    ∧ (HandleConnection.iteration NewKeyValueStore "SET k v extra\n".toList).written
      ≠ "Error : Unknown Command\r\n".toList := by
  decide

/-- C12: for every state of the Store and every two lines that are the same
but for the ASCII letter case of runes of the command name (leading white
space `ws`, then `n₁` or `n₂` without white space and alike up to case, then the
same rest `t`), the handler's iteration is the same: the same request sent, the
same reply written, the same state afterwards. -/
theorem C12_command_name_case_insensitive (kvs : KeyValueStore) (ws n₁ n₂ t : List Char)
    (hws : ∀ c ∈ ws, IsSpace c = true) (hn : ∀ c ∈ n₁, IsSpace c = false)
    (hcase : sameUpToCase n₁ n₂ = true) :
    HandleConnection.iteration kvs (ws ++ n₁ ++ t)
      = HandleConnection.iteration kvs (ws ++ n₂ ++ t) := by
  have hn₂ := no_space_of_sameUpToCase n₁ n₂ hcase hn
  have hupper := ToUpper_eq_of_sameUpToCase n₁ n₂ hcase
  cases n₁ with
  | nil =>
    cases n₂ with
    | nil => rfl
    | cons b bs => simp [sameUpToCase] at hcase
  | cons a as =>
    cases n₂ with
    | nil => simp [sameUpToCase] at hcase
    | cons b bs =>
      have hsp : ∀ (w : List Char), (∀ c ∈ w, IsSpace c = false) → ' ' ∉ w :=
        fun w hw hmem => by
          have := hw ' ' hmem
          exact absurd this (by decide)
      have h₁ : Split (TrimSpace (ws ++ (a :: as) ++ t)) ' '
          = ((a :: as) ++ (Split (t.reverse.dropWhile IsSpace).reverse ' ').headD [])
            :: (Split (t.reverse.dropWhile IsSpace).reverse ' ').tail := by
        rw [List.append_assoc, TrimSpace_prepend_of_all ws _ hws,
          TrimSpace_word_append a as t hn, Split_append_of_not_mem _ _ _ (hsp _ hn)]
      have h₂ : Split (TrimSpace (ws ++ (b :: bs) ++ t)) ' '
          = ((b :: bs) ++ (Split (t.reverse.dropWhile IsSpace).reverse ' ').headD [])
            :: (Split (t.reverse.dropWhile IsSpace).reverse ' ').tail := by
        rw [List.append_assoc, TrimSpace_prepend_of_all ws _ hws,
          TrimSpace_word_append b bs t hn₂, Split_append_of_not_mem _ _ _ (hsp _ hn₂)]
      refine iteration_congr kvs _ _ _ _ _ h₁ h₂ ?_
      simp only [ToUpper, List.map_append] at hupper ⊢
      rw [hupper]

/-- C12, witness: the lines `get k` and `GET k` on the Store that holds `k`. -/
theorem C12_command_name_case_insensitive_witness :
    sameUpToCase "get".toList "GET".toList = true
    ∧ HandleConnection.iteration { store := Map.empty.set "k".toList "v".toList, unsent := [] }
        ([] ++ "get".toList ++ " k\n".toList)
      = HandleConnection.iteration { store := Map.empty.set "k".toList "v".toList, unsent := [] }
        ([] ++ "GET".toList ++ " k\n".toList)
    ∧ (HandleConnection.iteration { store := Map.empty.set "k".toList "v".toList, unsent := [] }
        ([] ++ "get".toList ++ " k\n".toList)).written = "$1\r\nv\r\n".toList :=
  ⟨by decide,
    C12_command_name_case_insensitive _ [] "get".toList "GET".toList " k\n".toList
      (by decide) (by decide) (by decide),
    by decide⟩

/-- C13: for every state of the Store and every line body `L`, the handler's
iteration on `L` CR LF is its iteration on `L` LF: the same request sent, the
same reply written, the same state afterwards. When `L` has no newline the two
are the first lines read from the connections `L` CR LF `rest` and `L` LF
`rest`, and the handler's whole run is the same on both. -/
theorem C13_trailing_carriage_return (kvs : KeyValueStore) (L rest : List Char)
    (hL : '\n' ∉ L) :
    HandleConnection.iteration kvs (L ++ "\r\n".toList)
      = HandleConnection.iteration kvs (L ++ "\n".toList)
    ∧ readLines '\n' (L ++ "\r\n".toList ++ rest)
      = (L ++ "\r\n".toList) :: readLines '\n' rest
    ∧ readLines '\n' (L ++ "\n".toList ++ rest) = (L ++ "\n".toList) :: readLines '\n' rest
    ∧ HandleConnection (L ++ "\r\n".toList ++ rest) kvs
      = HandleConnection (L ++ "\n".toList ++ rest) kvs := by
  have hstep : HandleConnection.iteration kvs (L ++ "\r\n".toList)
      = HandleConnection.iteration kvs (L ++ "\n".toList) := by
    apply iteration_of_TrimSpace_eq
    rw [TrimSpace_append_of_all L _ (by decide), TrimSpace_append_of_all L _ (by decide)]
  have hcr : readLines '\n' (L ++ "\r\n".toList ++ rest)
      = (L ++ "\r\n".toList) :: readLines '\n' rest := by
    have e : L ++ "\r\n".toList ++ rest = (L ++ ['\r']) ++ '\n' :: rest := by simp
    have hmem : '\n' ∉ L ++ ['\r'] := by
      simp only [List.mem_append, List.mem_singleton, not_or]
      exact ⟨hL, by decide⟩
    rw [e, readLines_append_delim _ _ _ hmem]
    simp
  have hlf : readLines '\n' (L ++ "\n".toList ++ rest)
      = (L ++ "\n".toList) :: readLines '\n' rest := by
    have e : L ++ "\n".toList ++ rest = L ++ '\n' :: rest := by simp
    rw [e, readLines_append_delim _ _ _ hL]
    simp
  refine ⟨hstep, hcr, hlf, ?_⟩
  unfold HandleConnection
  rw [hcr, hlf]
  simp only [HandleConnection.loop, hstep]

/-- C13, witness: the line body `SET k v`, followed by the line `GET k`. -/
theorem C13_trailing_carriage_return_witness :
    '\n' ∉ "SET k v".toList
    ∧ (HandleConnection.iteration NewKeyValueStore ("SET k v".toList ++ "\r\n".toList)
      = HandleConnection.iteration NewKeyValueStore ("SET k v".toList ++ "\n".toList)
    ∧ readLines '\n' ("SET k v".toList ++ "\r\n".toList ++ "GET k\n".toList)
      = ("SET k v".toList ++ "\r\n".toList) :: readLines '\n' "GET k\n".toList
    ∧ readLines '\n' ("SET k v".toList ++ "\n".toList ++ "GET k\n".toList)
      = ("SET k v".toList ++ "\n".toList) :: readLines '\n' "GET k\n".toList
    ∧ HandleConnection ("SET k v".toList ++ "\r\n".toList ++ "GET k\n".toList) NewKeyValueStore
      = HandleConnection ("SET k v".toList ++ "\n".toList ++ "GET k\n".toList)
          NewKeyValueStore)
    ∧ (HandleConnection ("SET k v".toList ++ "\r\n".toList ++ "GET k\n".toList)
        NewKeyValueStore).written = "Ok\r\n$1\r\nv\r\n".toList :=
  ⟨by decide,
    C13_trailing_carriage_return NewKeyValueStore "SET k v".toList "GET k\n".toList (by decide),
    by decide⟩

/-- C15: for every map and command, the Store's iteration for a command received
on the GET channel leaves the whole map as it is, on a hit and on a miss; for a
command received on the SET or the DEL channel it leaves the mapping of every
key other than the command's key as it is. -/
theorem C15_frame (store : Map) (cmd : Command) :
    (KeyValueStore.Start store .get cmd).1 = store
    ∧ (∀ k, k ≠ cmd.Key → (KeyValueStore.Start store .set cmd).1 k = store k)
    ∧ (∀ k, k ≠ cmd.Key → (KeyValueStore.Start store .del cmd).1 k = store k) := by
  refine ⟨rfl, ?_, ?_⟩
  · intro k hk
    simp [KeyValueStore.Start, Map.set, hk]
  · intro k hk
    simp [KeyValueStore.Start, Map.delete, hk]

/-- C15, witness: on the map that holds `a` and `b`, GET(a) and GET(c) leave
the map as it is, and SET(a,x) and DEL(a) leave `b` as it is. -/
theorem C15_frame_witness :
    (KeyValueStore.Start ((Map.empty.set "a".toList "1".toList).set "b".toList "2".toList) .get
        { Name := "GET".toList, Key := "c".toList, Value := [] }).1
      = (Map.empty.set "a".toList "1".toList).set "b".toList "2".toList
    ∧ (KeyValueStore.Start ((Map.empty.set "a".toList "1".toList).set "b".toList "2".toList)
        .set { Name := "SET".toList, Key := "a".toList, Value := "x".toList }).1 "b".toList
      = some "2".toList
    ∧ (KeyValueStore.Start ((Map.empty.set "a".toList "1".toList).set "b".toList "2".toList)
        .del { Name := "DEL".toList, Key := "a".toList, Value := [] }).1 "b".toList
      = some "2".toList :=
  ⟨(C15_frame _ _).1,
    ((C15_frame ((Map.empty.set "a".toList "1".toList).set "b".toList "2".toList)
      { Name := "SET".toList, Key := "a".toList, Value := "x".toList }).2.1 "b".toList
        (by decide)).trans (by decide),
    ((C15_frame ((Map.empty.set "a".toList "1".toList).set "b".toList "2".toList)
      { Name := "DEL".toList, Key := "a".toList, Value := [] }).2.2 "b".toList
        (by decide)).trans (by decide)⟩

/-- C16: for every line the split of the trimmed line has a first part, so the
access `parts[0]` is in range; for a line that is empty or all white space the
parts are the one empty string, the command name is empty, and the handler
writes the unknown-command error, sends nothing and is back awaiting a
command with the Store as it was. -/
theorem C16_command_name_in_range (kvs : KeyValueStore) (command : List Char) :
    (∃ name, (Split (TrimSpace command) ' ')[0]? = some name)
    ∧ ((∀ c ∈ command, IsSpace c = true) →
        Split (TrimSpace command) ' ' = [[]]
        ∧ HandleConnection.iteration kvs command =
          { status := .awaiting, written := "Error : Unknown Command\r\n".toList,
            sent := none, kvs := kvs }) := by
  constructor
  · cases h : Split (TrimSpace command) ' ' with
    | nil => exact absurd h (Split_ne_nil _ _)
    | cons name args => exact ⟨name, List.getElem?_cons_zero⟩
  · intro hall
    have htrim : TrimSpace command = [] := by
      have := TrimSpace_append_of_all [] command hall
      simpa [TrimSpace] using this
    have hparts : Split (TrimSpace command) ' ' = [[]] := by
      rw [htrim]; rfl
    refine ⟨hparts, ?_⟩
    unfold HandleConnection.iteration
    simp only [hparts, List.getElem?_cons_zero]
    rfl

/-- C16, witness: the empty line and the line of two spaces and a tab. -/
theorem C16_command_name_in_range_witness :
    (Split (TrimSpace "\n".toList) ' ' = [[]]
      ∧ HandleConnection.iteration NewKeyValueStore "\n".toList =
        { status := .awaiting, written := "Error : Unknown Command\r\n".toList,
          sent := none, kvs := NewKeyValueStore })
    ∧ (Split (TrimSpace "  \t\r\n".toList) ' ' = [[]]
      ∧ HandleConnection.iteration NewKeyValueStore "  \t\r\n".toList =
        { status := .awaiting, written := "Error : Unknown Command\r\n".toList,
          sent := none, kvs := NewKeyValueStore })
    ∧ (HandleConnection "\nSET k v\n".toList NewKeyValueStore).written
      = "Error : Unknown Command\r\nOk\r\n".toList :=
  ⟨(C16_command_name_in_range NewKeyValueStore "\n".toList).2 (by decide),
    (C16_command_name_in_range NewKeyValueStore "  \t\r\n".toList).2 (by decide),
    by decide⟩

end RedisClone
